import Mathlib

/-!
Shallow embedding of the price computation and synchronization engine of
src/price_updater_plugin.py ("Steam Price Updater" plugin).

Prices, exchange rates and timestamps are modelled as rationals (ℚ).
Python floats are treated as exact decimals; Python `round(x, 2)` is
round-half-to-even at two decimal places.  External I/O (HTTP requests to
rate/price sources, the remote listing account API) is modelled by explicit
"world" records that fix the outcome of each outbound call; an exception
raised by an outbound call and caught by the code corresponds to a failure
constructor of the world.  Logging, locking and file persistence do not
affect the values computed and are modelled only where a claim needs them
(the `saves` counter).
-/

/-- ASCII upper-casing of one character; models Python `str.upper()` on the
currency codes appearing in the plugin (all ASCII). -/
def upChar (c : Char) : Char :=
  if 'a' ≤ c ∧ c ≤ 'z' then Char.ofNat (c.toNat - 32) else c

/-- Models `currency.upper()` from `get_currency_rate` (line 231). -/
def upStr (s : String) : String := ⟨s.data.map upChar⟩

/-- Round-half-to-even of a rational to an integer; models Python's builtin
banker's rounding used by `round`. -/
def pyRoundHalfEven (q : ℚ) : ℤ :=
  let f := ⌊q⌋
  let r := q - f
  if r < 1/2 then f
  else if r > 1/2 then f + 1
  else if f % 2 = 0 then f else f + 1

/-- Models Python `round(x, 2)` (two-decimal rounding, half to even). -/
def round2 (q : ℚ) : ℚ := (pyRoundHalfEven (q * 100) : ℚ) / 100

/-- One cached currency-rate entry: the dict
`{"rate": ..., "timestamp": ..., "source": ...}` stored in `CACHE` under key
`currency_rate_<currency>`.  `age` is `time.time() - timestamp` at the moment
`get_currency_rate` runs; the `source` tag never influences control flow and
is omitted. -/
structure RateCacheEntry where
  rate : ℚ
  age : ℚ
deriving DecidableEq

/-- The outside world seen by one call of `get_currency_rate`:
the cache contents, and the outcome of each outbound HTTP call.
`primary = none` models a failed / non-200 / raising request to
exchangerate-api; `primary = some rates` models a 200 response whose
`rates` JSON object is the partial map `rates`.  `cbr` / `nbu` model the
currency-specific fallback APIs for RUB / UAH: `none` is any failure
(non-200, missing field, exception), `some r` a successfully parsed rate.
Cache writes performed on success do not affect the returned value of the
call being modelled and are not threaded. -/
structure RateWorld where
  cache : String → Option RateCacheEntry
  primary : Option (String → Option ℚ)
  cbr : Option ℚ
  nbu : Option ℚ

/-- The static `fallback_rates` dict of `_get_fallback_rate`
(lines 320-326). -/
def fallback_rates (c : String) : Option ℚ :=
  if c = "UAH" then some 41.82
  else if c = "RUB" then some 78.42
  else if c = "KZT" then some 519.86
  else if c = "EUR" then some 0.85
  else if c = "USD" then some 1.0
  else none

/-- Models `_get_fallback_rate` (lines 307-330): last known cached rate if it
is positive (regardless of age), else the static table with default `1.0`
(`fallback_rates.get(currency, 1.0)`).  The leading underscore of the Python
name is dropped. -/
def get_fallback_rate (w : RateWorld) (currency : String) : ℚ :=
  match w.cache currency with
  | some e => if 0 < e.rate then e.rate else (fallback_rates currency).getD 1.0
  | none => (fallback_rates currency).getD 1.0

/-- Models `_get_currency_fallback` (lines 274-305): the RUB-specific CBR
API, the UAH-specific NBU API, otherwise (or on their failure) defer to
`_get_fallback_rate`.  The leading underscore of the Python name is
dropped. -/
def get_currency_fallback (w : RateWorld) (currency : String) : ℚ :=
  if currency = "RUB" then
    match w.cbr with
    | some r => r
    | none => get_fallback_rate w currency
  else if currency = "UAH" then
    match w.nbu with
    | some r => r
    | none => get_fallback_rate w currency
  else get_fallback_rate w currency

/-- The primary-API step of `get_currency_rate` (lines 245-272): query
exchangerate-api; on a 200 response with the currency present return that
rate; on a missing currency, a non-200 response or an exception fall back to
`_get_currency_fallback`.  Inline in the Python source; split out here for
readability only. -/
def get_currency_rate_primary (w : RateWorld) (currency : String) : ℚ :=
  match w.primary with
  | some rates =>
    match rates currency with
    | some r => r
    | none => get_currency_fallback w currency
  | none => get_currency_fallback w currency

/-- Models `get_currency_rate` (lines 229-272): upper-case the currency,
short-circuit USD to `1.0`, use a cached rate younger than 900 seconds,
otherwise primary API then the fallback chain.  (A cached entry always
carries its `"rate"` key, so `cached_rate.get("rate", ...)` is the cached
rate itself.) -/
def get_currency_rate (w : RateWorld) (currency : String) : ℚ :=
  let currency := upStr currency
  if currency = "USD" then 1.0
  else
    match w.cache currency with
    | some e =>
      if e.age < 900 then e.rate
      else get_currency_rate_primary w currency
    | none => get_currency_rate_primary w currency

/-- The global `SETTINGS` fields read by the price computation (lines 51-63).
`currency` is the FunPay account currency (`SETTINGS.get("currency", "USD")`
in `calculate_lot_price`). -/
structure Settings where
  currency : String
  first_markup : ℚ
  second_markup : ℚ
  fixed_markup : ℚ
  max_price : ℚ
  min_price : ℚ
deriving DecidableEq

/-- The conversion step of `calculate_lot_price` (lines 434-461): convert the
Steam price into the account currency.  `none` models the three `return 0.0`
guards on a non-positive exchange rate. -/
def calc_base_price (s : Settings) (w : RateWorld) (steam_price : ℚ)
    (steam_currency : String) : Option ℚ :=
  let account_currency := s.currency
  if steam_currency = account_currency then some steam_price
  else if account_currency = "USD" then
    if steam_currency = "USD" then some steam_price
    else
      let currency_rate := get_currency_rate w steam_currency
      if currency_rate ≤ 0 then none
      else some (steam_price / currency_rate)
  else
    let price_usd? : Option ℚ :=
      if steam_currency = "USD" then some steam_price
      else
        let steam_rate := get_currency_rate w steam_currency
        if steam_rate ≤ 0 then none
        else some (steam_price / steam_rate)
    match price_usd? with
    | none => none
    | some price_usd =>
      let account_rate := get_currency_rate w account_currency
      if account_rate ≤ 0 then none
      else some (price_usd * account_rate)

/-- The markup-and-clamp block of `calculate_lot_price` (lines 463-471):
currency markup, profit margin, fixed markup, clamp to
`[min_price, max_price]`, round to two decimals. -/
def calc_markup_clamp (s : Settings) (base_price : ℚ) : ℚ :=
  let price_with_currency_markup := base_price * (1 + s.first_markup / 100)
  let final_price :=
    price_with_currency_markup * (1 + s.second_markup / 100) + s.fixed_markup
  let final_price := min final_price s.max_price
  let final_price := max final_price s.min_price
  round2 final_price

/-- Models `calculate_lot_price` (lines 423-475).
`conv` is the outcome of `float(steam_price)`: `.error ()` models a
`ValueError` or `TypeError` raised by the conversion (handler: `return 0.0`,
line 431).  `exc` models an unexpected exception raised anywhere inside the
second `try` block (handler `except Exception`: `return 0.0`, line 475);
`exc = false` is the normal exception-free run.  A price of at most `0.01`
returns `SETTINGS["min_price"]` (line 427-428); a non-positive required
exchange rate returns the `0.0` failure sentinel. -/
def calculate_lot_price (s : Settings) (w : RateWorld) (conv : Except Unit ℚ)
    (exc : Bool) (steam_currency : String) : ℚ :=
  match conv with
  | .error _ => 0
  | .ok steam_price =>
    if steam_price ≤ 0.01 then s.min_price
    else if exc then 0
    else
      match calc_base_price s w steam_price steam_currency with
      | none => 0
      | some base_price => calc_markup_clamp s base_price

/-- One tracked lot: the per-lot dict stored in `LOTS`.  Fields not read by
the synchronization path (`name`, timestamps of creation, ...) are omitted;
`on` is the enabled flag checked by the scheduler; `last_price`,
`last_update`, `last_steam_price` are the sync-result fields, absent
(`none`) until first written. -/
structure Lot where
  steam_id : String
  steam_currency : String
  min : ℚ
  max : ℚ
  «on» : Bool
  last_price : Option ℚ := none
  last_update : Option ℚ := none
  last_steam_price : Option ℚ := none
deriving DecidableEq

/-- Membership of a lot id in the `LOTS` mapping (`my_lot_id not in LOTS`). -/
def lotsMem (l : List (String × Lot)) (id : String) : Bool :=
  l.any (fun p => p.1 = id)

/-- Models `del LOTS[my_lot_id]`. -/
def lotsRemove (l : List (String × Lot)) (id : String) : List (String × Lot) :=
  l.filter (fun p => ¬ p.1 = id)

/-- Models the two assignments in `change_price` after a successful save:
`LOTS[id]["last_price"] = new_price; LOTS[id]["last_update"] = time.time()`. -/
def lotsSetPrice (l : List (String × Lot)) (id : String) (price now : ℚ) :
    List (String × Lot) :=
  l.map (fun p =>
    if p.1 = id then
      (p.1, { p.2 with last_price := some price, last_update := some now })
    else p)

/-- Models the two assignments in `update_lot_price` after a successful
`change_price`: `LOTS[id]["last_steam_price"] = steam_price;
LOTS[id]["last_update"] = time.time()`. -/
def lotsSetSteam (l : List (String × Lot)) (id : String) (sp now : ℚ) :
    List (String × Lot) :=
  l.map (fun p =>
    if p.1 = id then
      (p.1, { p.2 with last_steam_price := some sp, last_update := some now })
    else p)

/-- Mutable state touched by `change_price` / `update_lot_price`: the `LOTS`
map, the remote listing's current price per lot id (what
`cardinal.account.get_lot_fields(id).price` reads and `save_lot` writes),
the number of `save_lot` calls issued (remote writes) and the number of
`save_to_file` persistence calls. -/
structure SyncState where
  lots : List (String × Lot)
  remote : String → ℚ
  writes : ℕ
  saves : ℕ

/-- Outcome of the `cardinal.account.get_lot_fields(int(id))` call inside
`change_price`:
`ok` — fields returned, their `price` attribute is the lot's current remote
price; `noPrice` — fields returned but `lot_fields.price is None`
(line 634); `missingFields` — `lot_fields is None or not hasattr(lot_fields,
"price")` (line 626); `errNotFound` — the call raised and the message
contains "not found" / "не найден" (line 620); `errOther` — the call raised
with any other message. -/
inductive FetchOutcome where
  | ok
  | noPrice
  | missingFields
  | errNotFound
  | errOther
deriving DecidableEq

/-- Deterministic outside world for one or more calls of `change_price` /
`update_lot_price` with unchanged upstream data: the fixed outcome of
`get_lot_fields`, whether `cardinal.account` has a working `save_lot`
(line 642), the fixed result of `get_steam_price` for the lot's Steam id
(`none` = every retry fails, `some p` = each retry returns the cached price
`p`), the rate world, the `SETTINGS` in force, and the current time. -/
structure SyncWorld where
  fetch : FetchOutcome
  save_ok : Bool
  steam_price : Option ℚ
  rates : RateWorld
  settings : Settings
  now : ℚ

/-- Models `change_price` (lines 605-660).  Returns the boolean result and
the state after the call.  A remote write (`save_lot`) happens only in the
threshold branch `abs(round(new_price, 2) - round(old_price, 2)) >= 0.005`
and bumps `writes`; the two lot-pruning branches bump `saves`
(`save_to_file`). -/
def change_price (w : SyncWorld) (st : SyncState) (my_lot_id : String)
    (new_price : ℚ) : Bool × SyncState :=
  if ¬ lotsMem st.lots my_lot_id then (false, st)
  else
    match w.fetch with
    | .errNotFound =>
      (false, { st with lots := lotsRemove st.lots my_lot_id,
                        saves := st.saves + 1 })
    | .errOther => (false, st)
    | .missingFields =>
      (false, { st with lots := lotsRemove st.lots my_lot_id,
                        saves := st.saves + 1 })
    | .noPrice => (false, st)
    | .ok =>
      let old_price := st.remote my_lot_id
      if 0.005 ≤ |round2 new_price - round2 old_price| then
        if w.save_ok then
          (true, { st with
            remote := fun x => if x = my_lot_id then new_price else st.remote x,
            writes := st.writes + 1,
            lots := lotsSetPrice st.lots my_lot_id new_price w.now })
        else (false, st)
      else (true, st)

/-- Models `validate_lot_data` (lines 494-519) on a well-typed lot record:
all required fields exist by construction; the remaining checks are a
non-empty `steam_id`, positive bounds and `min ≤ max`. -/
def validate_lot_data (lot : Lot) : Prop :=
  lot.steam_id ≠ "" ∧ 0 < lot.min ∧ 0 < lot.max ∧ lot.min ≤ lot.max

instance (lot : Lot) : Decidable (validate_lot_data lot) := by
  unfold validate_lot_data; infer_instance

/-- Models `update_lot_price` (lines 558-603).  The retry loop around
`get_steam_price` is collapsed by determinism of the world: every attempt
returns `w.steam_price`, so the loop is equivalent to a single lookup.
`calculate_lot_price` runs exception-free on the fetched float.  On a
successful `change_price` the lot's `last_steam_price` / `last_update`
fields are written. -/
def update_lot_price (w : SyncWorld) (st : SyncState) (lot_id : String)
    (lot_data : Lot) : Bool × SyncState :=
  if ¬ validate_lot_data lot_data then (false, st)
  else
    match w.steam_price with
    | none => (false, st)
    | some steam_price =>
      if steam_price ≤ 0 then (false, st)
      else
        let new_price :=
          calculate_lot_price w.settings w.rates (.ok steam_price) false
            lot_data.steam_currency
        if new_price ≤ 0 then (false, st)
        else
          let new_price := max lot_data.min (min new_price lot_data.max)
          let res := change_price w st lot_id new_price
          if res.1 then
            (true, { res.2 with
              lots := lotsSetSteam res.2.lots lot_id steam_price w.now })
          else (false, res.2)

/-- Observable events of one scheduler cycle, in program order:
`setCheck id t` is the assignment `lot_last_check[lot_id] = current_time`
(line 2361); `sync id` is the call `update_lot_price(lot_id, ...)`
(line 2368). -/
inductive Ev where
  | setCheck (id : String) (t : ℚ)
  | sync (id : String)
deriving DecidableEq

/-- An event `a` immediately followed by `b` somewhere in the trace. -/
def adjacentIn (a b : Ev) (l : List Ev) : Prop :=
  ∃ s t, l = s ++ a :: b :: t

/-- The due test of the scheduler (line 2357): an item is processed only
when `current_time - last_check < global_interval` fails. -/
def dueAt (interval now : ℚ) (lc : String → ℚ) (id : String) : Prop :=
  interval ≤ now - lc id

/-- One iteration of the `for lot_id, lot_data in LOTS.items()` body
(lines 2350-2375): skip ids equal to "0" and disabled lots, skip lots whose
last check is younger than the interval, otherwise stamp the last-check map
and invoke the sync, producing the corresponding events. -/
def cycleStep (interval now : ℚ) (lc : String → ℚ) (item : String × Lot) :
    (String → ℚ) × List Ev :=
  if item.1 = "0" ∨ item.2.«on» = false then (lc, [])
  else if now - lc item.1 < interval then (lc, [])
  else
    (fun x => if x = item.1 then now else lc x,
     [Ev.setCheck item.1 now, Ev.sync item.1])

/-- One full pass of the scheduler cycle over the lot list (the `for` loop of
`post_start.process`, lines 2350-2375), threading `lot_last_check` and
collecting the event trace.  `current_time` is read once per cycle
(line 2346) and is the `now` argument. -/
def process_cycle (interval now : ℚ) (lc : String → ℚ) :
    List (String × Lot) → (String → ℚ) × List Ev
  | [] => (lc, [])
  | item :: rest =>
    let step := cycleStep interval now lc item
    let tail := process_cycle interval now step.1 rest
    (tail.1, step.2 ++ tail.2)

/-- The global settings of the worked scenario in the specification: account
currency USD, 3% currency markup, 5% profit margin, fixed markup 0.5, price
bounds [1, 5000] (these are also the shipped defaults of `SETTINGS`,
lines 51-63). -/
def sDefault : Settings :=
  { currency := "USD", first_markup := 3, second_markup := 5,
    fixed_markup := 0.5, max_price := 5000, min_price := 1 }

/-- Rate world of the worked scenario: the primary exchangerate-api call
succeeds and quotes currency "A" at 40 units per USD; no cache, no
secondary sources. -/
def wScenario : RateWorld :=
  { cache := fun _ => none,
    primary := some (fun c => if c = "A" then some 40 else none),
    cbr := none, nbu := none }

/-- A rate world in which every upstream source fails and the cache is
empty: the primary request fails, both secondary APIs fail, no cached
rates. -/
def wAllFail : RateWorld :=
  { cache := fun _ => none, primary := none, cbr := none, nbu := none }

/-- Settings whose price floor is not a whole number of cents
(min_price = 1.005) and which apply no markups; used to exercise the
clamp-then-round order of `calculate_lot_price`. -/
def sCentMis : Settings :=
  { currency := "USD", first_markup := 0, second_markup := 0,
    fixed_markup := 0, max_price := 5000, min_price := 1.005 }

/-- A tracked lot with Steam app id 730, source currency USD, bounds
[1, 5000], enabled. -/
def lotA : Lot :=
  { steam_id := "730", steam_currency := "USD", min := 1, max := 5000,
    «on» := true }

/-- Sync state holding the single tracked lot `lotA` under id "1"; the
remote listing currently shows the price 1.0049; no writes or saves
yet. -/
def stNear : SyncState :=
  { lots := [("1", lotA)], remote := fun _ => 1.0049, writes := 0,
    saves := 0 }

/-- Sync state holding `lotA` under id "1" with the remote listing already
at exactly the price the calculator will produce (10 with no markups). -/
def stMatch : SyncState :=
  { lots := [("1", lotA)], remote := fun _ => 10, writes := 0, saves := 0 }

/-- Markup-free settings with account currency USD and bounds [1, 5000]. -/
def sNoMarkup : Settings :=
  { currency := "USD", first_markup := 0, second_markup := 0,
    fixed_markup := 0, max_price := 5000, min_price := 1 }

/-- A healthy deterministic sync world: `get_lot_fields` succeeds,
`save_lot` exists, every Steam fetch returns the cached price 10 USD, all
rate sources down (USD needs no rate), markup-free settings. -/
def wSync : SyncWorld :=
  { fetch := .ok, save_ok := true, steam_price := some 10,
    rates := wAllFail, settings := sNoMarkup, now := 1000 }

/-! ### Helper lemmas -/

lemma upStr_A : upStr "A" = "A" := by decide

lemma pyRoundHalfEven_ge_floor (q : ℚ) : ⌊q⌋ ≤ pyRoundHalfEven q := by
  unfold pyRoundHalfEven
  dsimp only
  split
  · exact le_rfl
  · split
    · exact le_of_lt (lt_add_one _)
    · split
      · exact le_rfl
      · exact le_of_lt (lt_add_one _)

lemma pyRoundHalfEven_le_ceil (q : ℚ) : pyRoundHalfEven q ≤ ⌈q⌉ := by
  have hnotlt : ¬ (q - ⌊q⌋ < 1/2) → ⌊q⌋ + 1 ≤ ⌈q⌉ := by
    intro h
    have h0 : (⌊q⌋ : ℚ) < q := by
      have : (1:ℚ)/2 ≤ q - ⌊q⌋ := not_lt.mp h
      linarith
    exact Int.add_one_le_iff.mpr (Int.lt_ceil.mpr h0)
  unfold pyRoundHalfEven
  dsimp only
  split
  · exact Int.floor_le_ceil q
  · next h =>
    split
    · exact hnotlt h
    · split
      · exact Int.floor_le_ceil q
      · exact hnotlt h

/-! ### C1: worked scenario of the price calculator -/

/-- C1.  Worked scenario: sourcePrice 10 in currency "A" with rate(A) = 40,
account currency USD, currency markup 3%, profit margin 5%, fixed
markup 0.5, bounds [1, 5000].  `calculate_lot_price` returns exactly 1:
base 0.25, with currency markup 0.2575, final 0.770375, clamped up to the
floor 1 and rounded to 1.00. -/
theorem calculate_lot_price_scenario :
    calculate_lot_price sDefault wScenario (.ok 10) false "A" = 1 := by
  simp [calculate_lot_price, calc_base_price, sDefault, wScenario,
    get_currency_rate, upStr_A, get_currency_rate_primary, calc_markup_clamp,
    round2, pyRoundHalfEven]
  norm_num

/-! ### C4: non-positive source price returns the floor -/

/-- C4.  For every sourcePrice ≤ 0 (including the 0.0 "no price" sentinel),
`calculate_lot_price` returns exactly `SETTINGS["min_price"]`, in any rate
world, with or without a later exception. -/
theorem calculate_lot_price_nonpos (s : Settings) (w : RateWorld) (exc : Bool)
    (c : String) (p : ℚ) (hp : p ≤ 0) :
    calculate_lot_price s w (.ok p) exc c = s.min_price := by
  have h : p ≤ 0.01 := by norm_num; linarith
  simp [calculate_lot_price, h]

/-- C4 witness: sourcePrice 0 yields the floor 1 of the default settings. -/
theorem calculate_lot_price_nonpos_witness :
    calculate_lot_price sDefault wAllFail (.ok 0) false "X" =
      sDefault.min_price :=
  calculate_lot_price_nonpos sDefault wAllFail false "X" 0 le_rfl

/-! ### C9: the floor rule extends to prices of at most one cent -/

/-- C9.  For every sourcePrice with 0 < sourcePrice ≤ 0.01,
`calculate_lot_price` returns exactly `SETTINGS["min_price"]`: the guard
`steam_price <= 0.01` (line 427) fires before any currency conversion or
markup. -/
theorem calculate_lot_price_tiny (s : Settings) (w : RateWorld) (exc : Bool)
    (c : String) (p : ℚ) (hp : 0 < p) (hp' : p ≤ 0.01) :
    calculate_lot_price s w (.ok p) exc c = s.min_price := by
  simp [calculate_lot_price, hp']

/-- C9 witness: sourcePrice 0.01 (one cent) yields the floor 1 of the
default settings. -/
theorem calculate_lot_price_tiny_witness :
    (0 : ℚ) < 0.01 ∧
      calculate_lot_price sDefault wAllFail (.ok 0.01) false "UAH" =
        sDefault.min_price :=
  ⟨by norm_num,
   calculate_lot_price_tiny sDefault wAllFail false "UAH" 0.01 (by norm_num)
     le_rfl⟩

/-! ### C2: what the exception handler actually returns -/

/-- C2 counterexample: with the default settings (min_price = 1), an
unexpected exception inside the computation block makes
`calculate_lot_price` return 0, not `SETTINGS["min_price"]` — the
`except Exception` handler at line 475 returns `0.0`. -/
theorem calculate_lot_price_exc_cex :
    calculate_lot_price sDefault wScenario (.ok 10) true "A" ≠
      sDefault.min_price := by
  simp [calculate_lot_price, sDefault]
  norm_num

/-- C2 amended.  If an unexpected exception is raised during the price
computation, `calculate_lot_price` catches it and returns the 0.0 failure
sentinel (not `settings.minPrice`); likewise a failing `float()` conversion
returns 0.0.  The exception never propagates: the function is total. -/
theorem calculate_lot_price_exc_returns_zero (s : Settings) (w : RateWorld)
    (c : String) (p : ℚ) (hp : 0.01 < p) :
    calculate_lot_price s w (.ok p) true c = 0 ∧
      calculate_lot_price s w (.error ()) true c = 0 := by
  constructor
  · simp [calculate_lot_price, not_le.mpr hp]
  · simp [calculate_lot_price]

/-- C2 witness: a source price of 10 with an exception in the computation
block yields 0. -/
theorem calculate_lot_price_exc_returns_zero_witness :
    calculate_lot_price sDefault wScenario (.ok 10) true "A" = 0 ∧
      calculate_lot_price sDefault wScenario (.error ()) true "A" = 0 :=
  calculate_lot_price_exc_returns_zero sDefault wScenario "A" 10 (by norm_num)

/-! ### C3: output bounds of the calculator -/

lemma round2_bounds (v : ℚ) (a b : ℤ) (hlo : (a : ℚ)/100 ≤ v)
    (hhi : v ≤ (b : ℚ)/100) :
    (a : ℚ)/100 ≤ round2 v ∧ round2 v ≤ (b : ℚ)/100 := by
  have hfl : a ≤ ⌊v * 100⌋ := Int.le_floor.mpr (by push_cast; linarith)
  have hce : ⌈v * 100⌉ ≤ b := Int.ceil_le.mpr (by push_cast; linarith)
  have h1 : a ≤ pyRoundHalfEven (v * 100) :=
    le_trans hfl (pyRoundHalfEven_ge_floor _)
  have h2 : pyRoundHalfEven (v * 100) ≤ b :=
    le_trans (pyRoundHalfEven_le_ceil _) hce
  unfold round2
  constructor
  · gcongr
  · gcongr

lemma calc_markup_clamp_bounds (s : Settings) (bp : ℚ)
    (hmm : s.min_price ≤ s.max_price)
    (a b : ℤ) (ha : s.min_price = (a : ℚ)/100) (hb : s.max_price = (b : ℚ)/100) :
    s.min_price ≤ calc_markup_clamp s bp ∧
      calc_markup_clamp s bp ≤ s.max_price := by
  have hmc : calc_markup_clamp s bp =
      round2 (max (min (bp * (1 + s.first_markup / 100) *
        (1 + s.second_markup / 100) + s.fixed_markup) s.max_price)
        s.min_price) := rfl
  set v := max (min (bp * (1 + s.first_markup / 100) *
    (1 + s.second_markup / 100) + s.fixed_markup) s.max_price) s.min_price
    with hv
  have hvlo : s.min_price ≤ v := le_max_right _ _
  have hvhi : v ≤ s.max_price := max_le (min_le_right _ _) hmm
  have := round2_bounds v a b (by rw [← ha]; exact hvlo) (by rw [← hb]; exact hvhi)
  rw [hmc, ha, hb]
  exact this

lemma calc_base_price_isSome (s : Settings) (w : RateWorld) (p : ℚ)
    (c : String) (hr : ∀ c', 0 < get_currency_rate w c') :
    ∃ bp, calc_base_price s w p c = some bp := by
  by_cases h1 : c = s.currency
  · exact ⟨p, by simp [calc_base_price, h1]⟩
  · by_cases h2 : s.currency = "USD"
    · by_cases h3 : c = "USD"
      · exact ⟨p, by simp [calc_base_price, h1, h2, h3]⟩
      · exact ⟨p / get_currency_rate w c,
          by simp [calc_base_price, h1, h2, h3, not_le.mpr (hr c)]⟩
    · by_cases h3 : c = "USD"
      · subst h3
        exact ⟨p * get_currency_rate w s.currency,
          by simp [calc_base_price, h1, h2,
            not_le.mpr (hr s.currency)]⟩
      · exact ⟨p / get_currency_rate w c * get_currency_rate w s.currency,
          by simp [calc_base_price, h1, h2, h3, not_le.mpr (hr c),
            not_le.mpr (hr s.currency)]⟩

/-- C3 counterexample: with min_price = 1.005 (a valid positive float with
min ≤ max), no markups, source price 0.02 in the account currency, the code
clamps to 1.005 and only then rounds, producing 1.00 — strictly below the
floor.  The claimed inclusion in [minPrice, maxPrice] fails. -/
theorem calculate_lot_price_bounds_cex :
    ¬ sCentMis.min_price ≤
        calculate_lot_price sCentMis wAllFail (.ok 0.02) false "USD" := by
  have hrhe : pyRoundHalfEven ((201 : ℚ)/2) = 100 := by
    unfold pyRoundHalfEven
    norm_num
  have hround : round2 ((201 : ℚ)/200) = 1 := by
    unfold round2
    rw [show ((201 : ℚ)/200 * 100) = 201/2 by norm_num, hrhe]
    norm_num
  have hcalc : calculate_lot_price sCentMis wAllFail (.ok 0.02) false "USD" =
      round2 ((201 : ℚ)/200) := by
    simp only [calculate_lot_price, calc_base_price, calc_markup_clamp,
      sCentMis]
    norm_num [min_def, max_def]
  rw [hcalc, hround]
  simp only [sCentMis]
  norm_num

/-- C3 amended.  For every valid input (positive source price, positive
exchange rates, min_price ≤ max_price) **whose price bounds are whole
numbers of cents**, the exception-free output of `calculate_lot_price` lies
in [min_price, max_price].  (The code clamps before rounding, so a bound
that is not a multiple of 0.01 can be overshot by up to half a cent, as the
counterexample shows.) -/
theorem calculate_lot_price_bounds (s : Settings) (w : RateWorld)
    (c : String) (p : ℚ) (hp : 0 < p)
    (hr : ∀ c', 0 < get_currency_rate w c')
    (hmm : s.min_price ≤ s.max_price)
    (a b : ℤ) (ha : s.min_price = (a : ℚ)/100) (hb : s.max_price = (b : ℚ)/100) :
    s.min_price ≤ calculate_lot_price s w (.ok p) false c ∧
      calculate_lot_price s w (.ok p) false c ≤ s.max_price := by
  by_cases hsmall : p ≤ 0.01
  · simp [calculate_lot_price, hsmall]
    exact hmm
  · obtain ⟨bp, hbase⟩ := calc_base_price_isSome s w p c hr
    simp only [calculate_lot_price, hsmall, if_false, Bool.false_eq_true,
      hbase]
    exact calc_markup_clamp_bounds s bp hmm a b ha hb

lemma fallback_rates_getD_pos (c : String) :
    0 < (fallback_rates c).getD 1.0 := by
  unfold fallback_rates
  repeat' split
  all_goals norm_num

lemma get_fallback_rate_pos (w : RateWorld) (c : String) :
    0 < get_fallback_rate w c := by
  unfold get_fallback_rate
  split
  · split
    · assumption
    · exact fallback_rates_getD_pos c
  · exact fallback_rates_getD_pos c

lemma wAllFail_rates_pos : ∀ c, 0 < get_currency_rate wAllFail c := by
  intro c
  unfold get_currency_rate
  dsimp only
  split
  · norm_num
  · simp only [wAllFail, get_currency_rate_primary, get_currency_fallback]
    split
    · exact get_fallback_rate_pos _ _
    · split
      · exact get_fallback_rate_pos _ _
      · exact get_fallback_rate_pos _ _

/-- C3 witness: default-like settings with cent-aligned bounds [1, 5000],
all rate sources failed (static fallback rates in force), source price 10
in UAH: the result stays within the bounds. -/
theorem calculate_lot_price_bounds_witness :
    sDefault.min_price ≤
        calculate_lot_price sDefault wAllFail (.ok 10) false "UAH" ∧
      calculate_lot_price sDefault wAllFail (.ok 10) false "UAH" ≤
        sDefault.max_price :=
  calculate_lot_price_bounds sDefault wAllFail "UAH" 10 (by norm_num)
    wAllFail_rates_pos (by norm_num [sDefault]) 100 500000
    (by norm_num [sDefault]) (by norm_num [sDefault])

/-! ### C5: the rate provider never fails and never returns a non-positive
rate -/

lemma get_currency_fallback_pos (w : RateWorld) (c : String)
    (hcbr : ∀ r, w.cbr = some r → 0 < r)
    (hnbu : ∀ r, w.nbu = some r → 0 < r) :
    0 < get_currency_fallback w c := by
  unfold get_currency_fallback
  split
  · cases h : w.cbr with
    | some r => simp only [h]; exact hcbr r h
    | none => simp only [h]; exact get_fallback_rate_pos _ _
  · split
    · cases h : w.nbu with
      | some r => simp only [h]; exact hnbu r h
      | none => simp only [h]; exact get_fallback_rate_pos _ _
    · exact get_fallback_rate_pos _ _

lemma get_currency_rate_primary_pos (w : RateWorld) (c : String)
    (hp : ∀ f k r, w.primary = some f → f k = some r → 0 < r)
    (hcbr : ∀ r, w.cbr = some r → 0 < r)
    (hnbu : ∀ r, w.nbu = some r → 0 < r) :
    0 < get_currency_rate_primary w c := by
  unfold get_currency_rate_primary
  cases hpr : w.primary with
  | some f =>
    simp only [hpr]
    cases hf : f c with
    | some r => simp only [hf]; exact hp f c r hpr hf
    | none => simp only [hf]; exact get_currency_fallback_pos w c hcbr hnbu
  | none => simp only [hpr]; exact get_currency_fallback_pos w c hcbr hnbu

/-- C5.  For every currency argument and every combination of upstream
failures — the primary rate source failing or not, each secondary source
failing or not, the cache empty or holding positive rates —
`get_currency_rate` returns a positive rate (the function is total: no
exception can escape, every raising call is caught and handled by the
fallback chain).  Moreover, when every source fails, the cache is empty and
the currency is not in the static fallback table, it returns exactly 1.0. -/
theorem get_currency_rate_never_fails (w : RateWorld) (c : String)
    (hc : ∀ k e, w.cache k = some e → 0 < e.rate)
    (hp : ∀ f k r, w.primary = some f → f k = some r → 0 < r)
    (hcbr : ∀ r, w.cbr = some r → 0 < r)
    (hnbu : ∀ r, w.nbu = some r → 0 < r) :
    0 < get_currency_rate w c ∧
      (w.primary = none → w.cbr = none → w.nbu = none →
        w.cache (upStr c) = none → fallback_rates (upStr c) = none →
        get_currency_rate w c = 1) := by
  constructor
  · unfold get_currency_rate
    dsimp only
    split
    · norm_num
    · cases hcache : w.cache (upStr c) with
      | some e =>
        simp only [hcache]
        split
        · exact hc _ e hcache
        · exact get_currency_rate_primary_pos w (upStr c) hp hcbr hnbu
      | none =>
        simp only [hcache]
        exact get_currency_rate_primary_pos w (upStr c) hp hcbr hnbu
  · intro hpr hcbr0 hnbu0 hcache hfb
    have hUSD : ¬ upStr c = "USD" := by
      intro h
      rw [h] at hfb
      simp [fallback_rates] at hfb
    have hRUB : ¬ upStr c = "RUB" := by
      intro h
      rw [h] at hfb
      simp [fallback_rates] at hfb
    have hUAH : ¬ upStr c = "UAH" := by
      intro h
      rw [h] at hfb
      simp [fallback_rates] at hfb
    unfold get_currency_rate
    dsimp only
    rw [if_neg hUSD, hcache]
    unfold get_currency_rate_primary
    rw [hpr]
    unfold get_currency_fallback
    rw [if_neg hRUB, if_neg hUAH]
    unfold get_fallback_rate
    rw [hcache, hfb]
    norm_num

/-- C5 witness: every source down, empty cache, unknown currency "GBP": the
rate is positive, and it is exactly 1. -/
theorem get_currency_rate_never_fails_witness :
    0 < get_currency_rate wAllFail "GBP" ∧
      (wAllFail.primary = none → wAllFail.cbr = none → wAllFail.nbu = none →
        wAllFail.cache (upStr "GBP") = none →
        fallback_rates (upStr "GBP") = none →
        get_currency_rate wAllFail "GBP" = 1) :=
  get_currency_rate_never_fails wAllFail "GBP"
    (fun k e h => by simp [wAllFail] at h)
    (fun f k r h _ => by simp [wAllFail] at h)
    (fun r h => by simp [wAllFail] at h)
    (fun r h => by simp [wAllFail] at h)

/-! ### C6: the materiality threshold of `change_price` -/

lemma lotsMem_setPrice (l : List (String × Lot)) (id id' : String)
    (p t : ℚ) : lotsMem (lotsSetPrice l id' p t) id = lotsMem l id := by
  unfold lotsMem lotsSetPrice
  induction l with
  | nil => rfl
  | cons hd tl ih =>
    simp only [List.map_cons, List.any_cons, ih]
    congr 1
    split <;> rfl

lemma lotsMem_setSteam (l : List (String × Lot)) (id id' : String)
    (p t : ℚ) : lotsMem (lotsSetSteam l id' p t) id = lotsMem l id := by
  unfold lotsMem lotsSetSteam
  induction l with
  | nil => rfl
  | cons hd tl ih =>
    simp only [List.map_cons, List.any_cons, ih]
    congr 1
    split <;> rfl

lemma lotsMem_remove_self (l : List (String × Lot)) (id : String) :
    lotsMem (lotsRemove l id) id = false := by
  unfold lotsMem lotsRemove
  induction l with
  | nil => rfl
  | cons hd tl ih =>
    by_cases h : hd.1 = id
    · simpa [List.filter_cons, h] using ih
    · simpa [List.filter_cons, h] using ih

/-- C6 amended.  With the lot tracked, `get_lot_fields` succeeding and
`save_lot` available, `change_price` issues a remote write if and only if
the prices **rounded to two decimals** differ by at least 0.005, i.e. iff
they differ at all after rounding to cents
(`abs(round(new_price, 2) - round(old_price, 2)) >= 0.005`, line 639); when
the rounded difference is below 0.005 it returns True (Unchanged) and
leaves the write counter and the remote price untouched.  The raw
(unrounded) difference of the claim does not govern the decision. -/
theorem change_price_materiality (w : SyncWorld) (st : SyncState)
    (id : String) (np : ℚ)
    (hmem : lotsMem st.lots id = true)
    (hf : w.fetch = .ok) (hs : w.save_ok = true) :
    ((change_price w st id np).2.writes = st.writes + 1 ↔
      0.005 ≤ |round2 np - round2 (st.remote id)|) ∧
      (|round2 np - round2 (st.remote id)| < 0.005 →
        (change_price w st id np).1 = true ∧
          (change_price w st id np).2.writes = st.writes ∧
          (change_price w st id np).2.remote = st.remote) := by
  unfold change_price
  rw [hf, hs, hmem]
  by_cases hθ : (0.005 : ℚ) ≤ |round2 np - round2 (st.remote id)|
  · simp only [hθ, if_true, not_true, if_false, Bool.false_eq_true,
      not_false_iff, if_true]
    constructor
    · simp [hθ]
    · intro h
      exact absurd hθ (not_le.mpr h)
  · simp only [hθ, if_false]
    constructor
    · simp only [not_true, Bool.false_eq_true, if_false, iff_false]
      omega
    · intro _
      simp

/-- C6 witness: remote price 10, computed price 10: the rounded difference
is 0, below the threshold — the call reports True and writes nothing. -/
theorem change_price_materiality_witness :
    ((change_price wSync stMatch "1" 10).2.writes = stMatch.writes + 1 ↔
      0.005 ≤ |round2 10 - round2 (stMatch.remote "1")|) ∧
      (|round2 10 - round2 (stMatch.remote "1")| < 0.005 →
        (change_price wSync stMatch "1" 10).1 = true ∧
          (change_price wSync stMatch "1" 10).2.writes = stMatch.writes ∧
          (change_price wSync stMatch "1" 10).2.remote = stMatch.remote) :=
  change_price_materiality wSync stMatch "1" 10 (by decide) rfl rfl

lemma round2_10051 : round2 (1.0051 : ℚ) = 101/100 := by
  have h : pyRoundHalfEven ((10051 : ℚ)/100) = 101 := by
    unfold pyRoundHalfEven
    norm_num
  unfold round2
  rw [show ((1.0051 : ℚ) * 100) = 10051/100 by norm_num, h]
  norm_num

lemma round2_10049 : round2 (1.0049 : ℚ) = 1 := by
  have h : pyRoundHalfEven ((10049 : ℚ)/100) = 100 := by
    unfold pyRoundHalfEven
    norm_num
  unfold round2
  rw [show ((1.0049 : ℚ) * 100) = 10049/100 by norm_num, h]
  norm_num

/-- C6 counterexample: remote price 1.0049, computed price 1.0051.  The raw
difference 0.0002 is far below any materiality threshold (both the 0.005 of
the code and the 0.01 of the specification), yet `change_price` issues a
remote write, because the prices differ once rounded to cents
(1.01 vs 1.00).  A remote write does **not** occur iff
|new - old| ≥ threshold. -/
theorem change_price_materiality_cex :
    (change_price wSync stNear "1" 1.0051).2.writes = stNear.writes + 1 ∧
      |(1.0051 : ℚ) - stNear.remote "1"| < 0.005 := by
  have habs : |round2 (1.0051 : ℚ) - round2 (1.0049 : ℚ)| = 1/100 := by
    rw [round2_10051, round2_10049,
      show (101 : ℚ)/100 - 1 = 1/100 by norm_num]
    exact abs_of_nonneg (by norm_num)
  have hθ : (0.005 : ℚ) ≤ |round2 (1.0051 : ℚ) - round2 ((1.0049 : ℚ))| := by
    rw [habs]
    norm_num
  constructor
  · simp only [change_price, wSync, stNear, hθ, if_true]
    norm_num [lotsMem, lotA]
  · rw [show stNear.remote "1" = 1.0049 from rfl,
      show (1.0051 : ℚ) - 1.0049 = 0.0002 by norm_num,
      abs_of_nonneg (by norm_num : (0:ℚ) ≤ 0.0002)]
    norm_num

/-! ### C7: idempotence of a repeated sync with unchanged upstream data -/

lemma change_price_of_not_mem (w : SyncWorld) (st : SyncState) (id : String)
    (np : ℚ) (hmem : ¬ lotsMem st.lots id = true) :
    change_price w st id np = (false, st) := by
  unfold change_price
  rw [if_pos hmem]

lemma change_price_err_not_found (w : SyncWorld) (st : SyncState)
    (id : String) (np : ℚ) (hmem : lotsMem st.lots id = true)
    (hf : w.fetch = .errNotFound) :
    change_price w st id np =
      (false, { st with lots := lotsRemove st.lots id,
                        saves := st.saves + 1 }) := by
  unfold change_price
  rw [if_neg (not_not_intro hmem), hf]

lemma change_price_missing (w : SyncWorld) (st : SyncState) (id : String)
    (np : ℚ) (hmem : lotsMem st.lots id = true)
    (hf : w.fetch = .missingFields) :
    change_price w st id np =
      (false, { st with lots := lotsRemove st.lots id,
                        saves := st.saves + 1 }) := by
  unfold change_price
  rw [if_neg (not_not_intro hmem), hf]

lemma change_price_err_other (w : SyncWorld) (st : SyncState) (id : String)
    (np : ℚ) (hmem : lotsMem st.lots id = true)
    (hf : w.fetch = .errOther) :
    change_price w st id np = (false, st) := by
  unfold change_price
  rw [if_neg (not_not_intro hmem), hf]

lemma change_price_no_price (w : SyncWorld) (st : SyncState) (id : String)
    (np : ℚ) (hmem : lotsMem st.lots id = true)
    (hf : w.fetch = .noPrice) :
    change_price w st id np = (false, st) := by
  unfold change_price
  rw [if_neg (not_not_intro hmem), hf]

lemma change_price_write (w : SyncWorld) (st : SyncState) (id : String)
    (np : ℚ) (hmem : lotsMem st.lots id = true) (hf : w.fetch = .ok)
    (hθ : (0.005 : ℚ) ≤ |round2 np - round2 (st.remote id)|)
    (hsv : w.save_ok = true) :
    change_price w st id np =
      (true, { st with
        remote := fun x => if x = id then np else st.remote x,
        writes := st.writes + 1,
        lots := lotsSetPrice st.lots id np w.now }) := by
  unfold change_price
  rw [if_neg (not_not_intro hmem), hf]
  simp only [hθ, if_true, hsv]

lemma change_price_no_save (w : SyncWorld) (st : SyncState) (id : String)
    (np : ℚ) (hmem : lotsMem st.lots id = true) (hf : w.fetch = .ok)
    (hθ : (0.005 : ℚ) ≤ |round2 np - round2 (st.remote id)|)
    (hsv : w.save_ok = false) :
    change_price w st id np = (false, st) := by
  unfold change_price
  rw [if_neg (not_not_intro hmem), hf]
  simp only [hθ, if_true, hsv, Bool.false_eq_true, if_false]

lemma change_price_unchanged (w : SyncWorld) (st : SyncState) (id : String)
    (np : ℚ) (hmem : lotsMem st.lots id = true) (hf : w.fetch = .ok)
    (hθ : ¬ (0.005 : ℚ) ≤ |round2 np - round2 (st.remote id)|) :
    change_price w st id np = (true, st) := by
  unfold change_price
  rw [if_neg (not_not_intro hmem), hf]
  simp only [hθ, if_false]

/-- C7 amended.  For every deterministic world (same fetched Steam price,
same rates, same remote-API behaviour) and every starting state, running
`update_lot_price` twice in succession issues **at most** one remote write:
the first call performs at most one `save_lot`, and the second call never
writes (when it reaches the comparison it observes an immaterial rounded
difference and reports Unchanged).  "Exactly one" does not hold: when the
remote price already matches, both calls observe Unchanged and zero writes
occur (see the counterexample). -/
theorem update_lot_price_idem (w : SyncWorld) (st : SyncState) (id : String)
    (lot : Lot) :
    (update_lot_price w (update_lot_price w st id lot).2 id lot).2.writes =
        (update_lot_price w st id lot).2.writes ∧
      (update_lot_price w st id lot).2.writes ≤ st.writes + 1 := by
  by_cases hv : validate_lot_data lot
  case neg => simp [update_lot_price, hv]
  case pos =>
  cases hsp : w.steam_price with
  | none => simp [update_lot_price, hv, hsp]
  | some sp =>
  by_cases h1 : sp ≤ 0
  · simp [update_lot_price, hv, hsp, h1]
  · by_cases h2 : calculate_lot_price w.settings w.rates (.ok sp) false
        lot.steam_currency ≤ 0
    · simp [update_lot_price, hv, hsp, h1, h2]
    · have heq : ∀ st' : SyncState, update_lot_price w st' id lot =
          (if (change_price w st' id (max lot.min
              (min (calculate_lot_price w.settings w.rates (.ok sp) false
                lot.steam_currency) lot.max))).1 then
            (true, { (change_price w st' id (max lot.min
                (min (calculate_lot_price w.settings w.rates (.ok sp) false
                  lot.steam_currency) lot.max))).2 with
              lots := lotsSetSteam (change_price w st' id (max lot.min
                (min (calculate_lot_price w.settings w.rates (.ok sp) false
                  lot.steam_currency) lot.max))).2.lots id sp w.now })
          else (false, (change_price w st' id (max lot.min
              (min (calculate_lot_price w.settings w.rates (.ok sp) false
                lot.steam_currency) lot.max))).2)) := by
        intro st'
        simp [update_lot_price, hv, hsp, h1, h2]
      simp only [heq]
      set np := max lot.min (min (calculate_lot_price w.settings w.rates
        (.ok sp) false lot.steam_currency) lot.max) with hnp
      by_cases hmem : lotsMem st.lots id = true
      case neg =>
        rw [change_price_of_not_mem w st id np hmem]
        simp only [Prod.fst, Prod.snd, Bool.false_eq_true, if_false]
        rw [change_price_of_not_mem w st id np hmem]
        simp
      case pos =>
      cases hf : w.fetch with
      | errNotFound =>
        rw [change_price_err_not_found w st id np hmem hf]
        simp only [Prod.fst, Prod.snd, Bool.false_eq_true, if_false]
        rw [change_price_of_not_mem w _ id np
          (by simp [lotsMem_remove_self])]
        simp
      | missingFields =>
        rw [change_price_missing w st id np hmem hf]
        simp only [Prod.fst, Prod.snd, Bool.false_eq_true, if_false]
        rw [change_price_of_not_mem w _ id np
          (by simp [lotsMem_remove_self])]
        simp
      | errOther =>
        rw [change_price_err_other w st id np hmem hf]
        simp only [Prod.fst, Prod.snd, Bool.false_eq_true, if_false]
        rw [change_price_err_other w st id np hmem hf]
        simp
      | noPrice =>
        rw [change_price_no_price w st id np hmem hf]
        simp only [Prod.fst, Prod.snd, Bool.false_eq_true, if_false]
        rw [change_price_no_price w st id np hmem hf]
        simp
      | ok =>
        by_cases hθ : (0.005 : ℚ) ≤ |round2 np - round2 (st.remote id)|
        · cases hsv : w.save_ok with
          | false =>
            rw [change_price_no_save w st id np hmem hf hθ hsv]
            simp only [Prod.fst, Prod.snd, Bool.false_eq_true, if_false]
            rw [change_price_no_save w st id np hmem hf hθ hsv]
            simp
          | true =>
            rw [change_price_write w st id np hmem hf hθ hsv]
            simp only [Prod.fst, Prod.snd, if_true]
            rw [change_price_unchanged w _ id np
              (by simp only [lotsMem_setSteam, lotsMem_setPrice]; exact hmem)
              hf
              (by simp only [if_pos rfl, sub_self, abs_zero]; norm_num)]
            simp
        · rw [change_price_unchanged w st id np hmem hf hθ]
          simp only [Prod.fst, Prod.snd, if_true]
          rw [change_price_unchanged w _ id np
            (by simp only [lotsMem_setSteam]; exact hmem) hf
            (by simpa using hθ)]
          simp

lemma round2_10 : round2 (10 : ℚ) = 10 := by
  have h : pyRoundHalfEven ((1000 : ℚ)) = 1000 := by
    unfold pyRoundHalfEven
    norm_num
  unfold round2
  rw [show ((10 : ℚ) * 100) = 1000 by norm_num, h]
  norm_num

lemma validate_lotA : validate_lot_data lotA :=
  ⟨by decide, by norm_num [lotA], by norm_num [lotA], by norm_num [lotA]⟩

lemma calculate_sNoMarkup_10 :
    calculate_lot_price sNoMarkup wAllFail (Except.ok 10) false "USD" = 10 := by
  simp only [calculate_lot_price, calc_base_price, calc_markup_clamp,
    sNoMarkup]
  norm_num [min_def, max_def, round2_10]

/-- C7 counterexample: lot "1" is tracked, everything succeeds, and the
remote listing already shows exactly the computed price 10.  Both sync
calls succeed (the first returns True), yet **zero** remote writes are
issued across the two calls — "exactly one remote write" fails; only "at
most one" holds. -/
theorem update_lot_price_idem_cex :
    (update_lot_price wSync stMatch "1" lotA).1 = true ∧
      (update_lot_price wSync
        (update_lot_price wSync stMatch "1" lotA).2 "1" lotA).2.writes = 0 := by
  have hθ : ¬ (0.005 : ℚ) ≤ |round2 (10 : ℚ) - round2 (stMatch.remote "1")| := by
    rw [show stMatch.remote "1" = 10 from rfl, sub_self, abs_zero]
    norm_num
  have hcp : change_price wSync stMatch "1" 10 = (true, stMatch) :=
    change_price_unchanged wSync stMatch "1" 10 (by decide) rfl hθ
  have hc10 : calculate_lot_price wSync.settings wSync.rates (Except.ok 10)
      false lotA.steam_currency = 10 := by
    rw [show wSync.settings = sNoMarkup from rfl,
      show wSync.rates = wAllFail from rfl,
      show lotA.steam_currency = "USD" from rfl]
    exact calculate_sNoMarkup_10
  have hnp : max lotA.min (min (10 : ℚ) lotA.max) = 10 := by
    norm_num [lotA, min_def, max_def]
  have h1 : update_lot_price wSync stMatch "1" lotA =
      (true, { stMatch with lots := lotsSetSteam stMatch.lots "1" 10 1000 }) := by
    simp only [update_lot_price, validate_lotA, not_true, if_false,
      show wSync.steam_price = some 10 from rfl, hc10, hnp, hcp,
      show wSync.now = (1000 : ℚ) from rfl]
    norm_num
  set st1 : SyncState :=
    { stMatch with lots := lotsSetSteam stMatch.lots "1" 10 1000 } with hst1
  have hmem1 : lotsMem st1.lots "1" = true := by
    rw [hst1]
    show lotsMem (lotsSetSteam stMatch.lots "1" 10 1000) "1" = true
    rw [lotsMem_setSteam]
    decide
  have hθ1 : ¬ (0.005 : ℚ) ≤ |round2 (10 : ℚ) - round2 (st1.remote "1")| := by
    rw [show st1.remote "1" = 10 from rfl, sub_self, abs_zero]
    norm_num
  have hcp1 : change_price wSync st1 "1" 10 = (true, st1) :=
    change_price_unchanged wSync st1 "1" 10 hmem1 rfl hθ1
  have h2 : update_lot_price wSync st1 "1" lotA =
      (true, { st1 with lots := lotsSetSteam st1.lots "1" 10 1000 }) := by
    simp only [update_lot_price, validate_lotA, not_true, if_false,
      show wSync.steam_price = some 10 from rfl, hc10, hnp, hcp1,
      show wSync.now = (1000 : ℚ) from rfl]
    norm_num
  refine ⟨by rw [h1], ?_⟩
  rw [h1]
  show (update_lot_price wSync st1 "1" lotA).2.writes = 0
  rw [h2]
  rfl

/-! ### C8 and C10: the scheduler cycle -/

lemma process_cycle_cons (interval now : ℚ) (lc : String → ℚ)
    (item : String × Lot) (rest : List (String × Lot)) :
    process_cycle interval now lc (item :: rest) =
      ((process_cycle interval now (cycleStep interval now lc item).1 rest).1,
       (cycleStep interval now lc item).2 ++
         (process_cycle interval now (cycleStep interval now lc item).1
           rest).2) := rfl

lemma cycleStep_skip (interval now : ℚ) (lc : String → ℚ)
    (item : String × Lot) (h : item.1 = "0" ∨ item.2.«on» = false) :
    cycleStep interval now lc item = (lc, []) := by
  unfold cycleStep
  rw [if_pos h]

lemma cycleStep_not_due (interval now : ℚ) (lc : String → ℚ)
    (item : String × Lot) (h1 : ¬ (item.1 = "0" ∨ item.2.«on» = false))
    (h2 : now - lc item.1 < interval) :
    cycleStep interval now lc item = (lc, []) := by
  unfold cycleStep
  rw [if_neg h1, if_pos h2]

lemma cycleStep_run (interval now : ℚ) (lc : String → ℚ)
    (item : String × Lot) (h1 : ¬ (item.1 = "0" ∨ item.2.«on» = false))
    (h2 : ¬ now - lc item.1 < interval) :
    cycleStep interval now lc item =
      (fun x => if x = item.1 then now else lc x,
       [Ev.setCheck item.1 now, Ev.sync item.1]) := by
  unfold cycleStep
  rw [if_neg h1, if_neg h2]

lemma process_cycle_stamp_stable (interval now : ℚ) (id : String) :
    ∀ (items : List (String × Lot)) (lc : String → ℚ), lc id = now →
      (process_cycle interval now lc items).1 id = now := by
  intro items
  induction items with
  | nil => intro lc h; exact h
  | cons item rest ih =>
    intro lc h
    rw [process_cycle_cons]
    apply ih
    unfold cycleStep
    split
    · exact h
    · split
      · exact h
      · by_cases hx : id = item.1
        · simp [hx]
        · simp [hx, h]

lemma adjacentIn_append_left (a b : Ev) (es l : List Ev)
    (h : adjacentIn a b l) : adjacentIn a b (es ++ l) := by
  obtain ⟨s, t, ht⟩ := h
  exact ⟨es ++ s, t, by rw [ht, List.append_assoc]⟩

/-- C8.  In every scheduler cycle, whenever an item is synced, the event
trace shows the assignment of `current_time` to the item's
`lot_last_check` entry immediately before the sync invocation; at the end
of the cycle the item's last-check entry equals the cycle time `now`, so
the item cannot be due again (line 2357's test) at any moment less than
`updateIntervalSeconds` after `now` — however slow or failing the sync
was. -/
theorem process_cycle_stamps_before_sync (interval now : ℚ)
    (items : List (String × Lot)) (lc : String → ℚ) (id : String)
    (hpos : 0 < interval)
    (hs : Ev.sync id ∈ (process_cycle interval now lc items).2) :
    adjacentIn (Ev.setCheck id now) (Ev.sync id)
        (process_cycle interval now lc items).2 ∧
      (process_cycle interval now lc items).1 id = now ∧
      ∀ t : ℚ, t - now < interval →
        ¬ dueAt interval t (process_cycle interval now lc items).1 id := by
  revert hs
  induction items generalizing lc with
  | nil =>
    intro hs
    simp [process_cycle] at hs
  | cons item rest ih =>
    intro hs
    rw [process_cycle_cons] at hs ⊢
    by_cases hskip : item.1 = "0" ∨ item.2.«on» = false
    · rw [cycleStep_skip interval now lc item hskip] at hs ⊢
      simp only [List.nil_append] at hs ⊢
      exact ih lc hs
    · by_cases hdue : now - lc item.1 < interval
      · rw [cycleStep_not_due interval now lc item hskip hdue] at hs ⊢
        simp only [List.nil_append] at hs ⊢
        exact ih lc hs
      · rw [cycleStep_run interval now lc item hskip hdue] at hs ⊢
        rcases List.mem_append.mp hs with hin | hin
        · have hid : id = item.1 := by
            rcases List.mem_cons.mp hin with h | h
            · cases h
            · rcases List.mem_cons.mp h with h' | h'
              · cases h'; rfl
              · cases List.not_mem_nil _ h'
          subst hid
          have hfinal : (process_cycle interval now
              (fun x => if x = item.1 then now else lc x) rest).1 item.1 =
                now :=
            process_cycle_stamp_stable interval now item.1 rest _ (by simp)
          refine ⟨⟨[], (process_cycle interval now
            (fun x => if x = item.1 then now else lc x) rest).2, by simp⟩,
            hfinal, ?_⟩
          intro t ht
          unfold dueAt
          rw [hfinal]
          linarith
        · obtain ⟨hadj, hfin, hd⟩ := ih _ hin
          exact ⟨adjacentIn_append_left _ _ _ _ hadj, hfin, hd⟩

/-- C8 witness: one enabled lot under id "5", never checked before
(last check 0), cycle time 30000, interval 21600: the item is synced, the
stamp precedes the sync, and the item is not due again before
30000 + 21600. -/
theorem process_cycle_stamps_before_sync_witness :
    adjacentIn (Ev.setCheck "5" 30000) (Ev.sync "5")
        (process_cycle 21600 30000 (fun _ => 0) [("5", lotA)]).2 ∧
      (process_cycle 21600 30000 (fun _ => 0) [("5", lotA)]).1 "5" = 30000 ∧
      ∀ t : ℚ, t - 30000 < 21600 →
        ¬ dueAt 21600 t
          (process_cycle 21600 30000 (fun _ => 0) [("5", lotA)]).1 "5" :=
  process_cycle_stamps_before_sync 21600 30000 [("5", lotA)] (fun _ => 0) "5"
    (by norm_num)
    (by norm_num [process_cycle, cycleStep, lotA,
      show ¬ ("5" : String) = "0" from by decide])

/-- C10.  The scheduler loop never processes a tracked item whose id is the
string "0": in every cycle, for every state of the last-check map and every
lot list, no sync event for id "0" is ever emitted and its last-check entry
is never stamped — the guard `lot_id == "0"` (line 2351) fires before the
due-time check, even for an enabled, long-overdue item. -/
theorem process_cycle_skips_id_zero (interval now : ℚ)
    (items : List (String × Lot)) (lc : String → ℚ) :
    Ev.sync "0" ∉ (process_cycle interval now lc items).2 ∧
      (process_cycle interval now lc items).1 "0" = lc "0" := by
  induction items generalizing lc with
  | nil => simp [process_cycle]
  | cons item rest ih =>
    rw [process_cycle_cons]
    by_cases hskip : item.1 = "0" ∨ item.2.«on» = false
    · rw [cycleStep_skip interval now lc item hskip]
      simpa using ih lc
    · by_cases hdue : now - lc item.1 < interval
      · rw [cycleStep_not_due interval now lc item hskip hdue]
        simpa using ih lc
      · rw [cycleStep_run interval now lc item hskip hdue]
        have hne : item.1 ≠ "0" := fun h => hskip (Or.inl h)
        obtain ⟨ih1, ih2⟩ := ih (fun x => if x = item.1 then now else lc x)
        constructor
        · intro hmem
          rcases List.mem_append.mp hmem with h | h
          · rcases List.mem_cons.mp h with h' | h'
            · exact Ev.noConfusion h'
            · rcases List.mem_cons.mp h' with h'' | h''
              · exact hne (Ev.sync.inj h'').symm
              · exact List.not_mem_nil _ h''
          · exact ih1 h
        · rw [ih2, if_neg (fun h => hne h.symm)]
